import Mathlib

/-!
Shallow embedding of the strategy-evaluation core of the SOLANA_SNIPER_BOT
repository: `src/strategies/trading_strategies.py` and
`src/strategies/strategy_manager.py`.

Python floats are modelled as rationals (`ℚ`); Python lists as `List ℚ`;
Python dicts keyed by strings as functions `String → Option _` (for the
strategy registry) or as structures with one field per key that the code
reads (for market-data and signal dicts).  Code that can raise an exception
is modelled with `Option`: `none` is a raised exception.  Negative-index
list access and slicing follow Python semantics exactly, including the
`xs[-0:] = xs` corner case.
-/

/-- The closed signal enumeration: the Python string literals
"BUY" / "SELL" / "HOLD". -/
inductive Sig where
  | BUY : Sig
  | SELL : Sig
  | HOLD : Sig
deriving DecidableEq, Repr

/-- `np.mean xs`, as exact rational arithmetic. (On `[]` numpy yields `nan`;
all uses below are guarded so the empty case never decides a claim.) -/
def mean (xs : List ℚ) : ℚ := xs.sum / (xs.length : ℚ)

/-- The Python slice `xs[-k:]`.  For `k = 0` this is `xs[0:] = xs`
(the `-0 == 0` corner); for `k ≥ 1` it is the last `k` elements,
clamped to the whole list when `k > len(xs)`. -/
def pyTail (xs : List ℚ) (k : ℕ) : List ℚ :=
  if k = 0 then xs else xs.drop (xs.length - k)

/-- The Python slice `xs[-k-1:-1]`: the elements from index
`max(0, len(xs)-k-1)` up to (excluding) the last one. -/
def pyPrevWindow (xs : List ℚ) (k : ℕ) : List ℚ :=
  xs.dropLast.drop (xs.dropLast.length - k)

/-- Python element access `xs[i]` with negative-index semantics, `none`
modelling an `IndexError`. -/
def pyGet (xs : List ℚ) (i : ℤ) : Option ℚ :=
  if 0 ≤ i then xs.get? i.toNat
  else if (-i).toNat ≤ xs.length then xs.get? (xs.length - (-i).toNat)
  else none

/-- `np.diff prices`: successive differences. -/
def npDiff : List ℚ → List ℚ
  | a :: b :: rest => (b - a) :: npDiff (b :: rest)
  | _ => []

/-! ## MovingAverageCrossover (trading_strategies.py, lines 32-82) -/

/-- `MovingAverageCrossover.analyze`, reduced to the signal kind it returns.
The arithmetic is exactly the source's: means of the slices `prices[-short:]`,
`prices[-long:]`, `prices[-short-1:-1]`, `prices[-long-1:-1]`. -/
def maAnalyze (shortWindow longWindow : ℕ) (prices : List ℚ) : Sig :=
  if prices.length < longWindow then Sig.HOLD
  else
    let shortMa := mean (pyTail prices shortWindow)
    let longMa := mean (pyTail prices longWindow)
    let prevShortMa := mean (pyPrevWindow prices shortWindow)
    let prevLongMa := mean (pyPrevWindow prices longWindow)
    if shortMa > longMa ∧ prevShortMa ≤ prevLongMa then Sig.BUY
    else if shortMa < longMa ∧ prevShortMa ≥ prevLongMa then Sig.SELL
    else Sig.HOLD

/-! ## RSIStrategy (trading_strategies.py, lines 85-156) -/

/-- `RSIStrategy.calculate_rsi`.  `np.clip(d, 0, None) = max d 0` and
`-np.clip(d, None, 0) = -(min d 0)`; the averages are over the Python
slices `gains[-period:]` and `losses[-period:]`. -/
def calculateRsi (period : ℕ) (prices : List ℚ) : ℚ :=
  if prices.length ≤ period then 50
  else
    let deltas := npDiff prices
    let gains := deltas.map fun d => max d 0
    let losses := deltas.map fun d => -(min d 0)
    let avgGain := mean (pyTail gains period)
    let avgLoss := mean (pyTail losses period)
    if avgLoss = 0 then 100
    else 100 - 100 / (1 + avgGain / avgLoss)

/-- `RSIStrategy.analyze`, reduced to the signal kind. -/
def rsiAnalyze (period : ℕ) (oversold overbought : ℚ) (prices : List ℚ) : Sig :=
  if prices.length ≤ period then Sig.HOLD
  else
    let currentRsi := calculateRsi period prices
    let prevRsi := calculateRsi period prices.dropLast
    if currentRsi < oversold ∧ prevRsi ≥ oversold then Sig.BUY
    else if currentRsi > overbought ∧ prevRsi ≤ overbought then Sig.SELL
    else Sig.HOLD

/-! ## VolatilityBreakout (trading_strategies.py, lines 159-223) -/

/-- One true range:
`max(high - low, |high - prior_close|, |low - prior_close|)`. -/
def trueRange (h l c : ℚ) : ℚ := max (h - l) (max |h - c| |l - c|)

/-- The true-range loop
`for i in range(1, min(lookback_period, len(highs)))`, each iteration
reading `highs[-(i+1)]`, `lows[-(i+1)]`, `closes[-(i+2)]`; a raised
`IndexError` is `none`. -/
def vbRanges (lookback : ℕ) (highs lows closes : List ℚ) :
    Option (List ℚ) :=
  (List.range' 1 (min lookback highs.length - 1)).mapM fun i => do
    let h ← pyGet highs (-((i : ℤ) + 1))
    let l ← pyGet lows (-((i : ℤ) + 1))
    let c ← pyGet closes (-((i : ℤ) + 2))
    pure (trueRange h l c)

/-- `VolatilityBreakout.analyze`, reduced to the signal kind; `none` models
a raised exception. -/
def vbAnalyze (lookback : ℕ) (volFactor : ℚ)
    (highs lows closes : List ℚ) : Option Sig :=
  if closes.length < lookback then some Sig.HOLD
  else do
    let ranges ← vbRanges lookback highs lows closes
    let atr := if ranges.isEmpty then 0 else mean ranges
    let currentPrice ← pyGet closes (-1)
    let previousClose ← pyGet closes (-2)
    let upperBand := previousClose + atr * volFactor
    let lowerBand := previousClose - atr * volFactor
    if currentPrice > upperBand then pure Sig.BUY
    else if currentPrice < lowerBand then pure Sig.SELL
    else pure Sig.HOLD

/-! ## Strategy objects and their constructors -/

/-- The market-data dict, restricted to the keys the strategies read
(`market_data.get('prices'/'highs'/'lows', [])`; an absent key is `[]`). -/
structure MarketData where
  prices : List ℚ
  highs : List ℚ
  lows : List ℚ

/-- A `TradingStrategy` object: the base-class state set by
`TradingStrategy.__init__` (`name`, `config`, `active`) together with the
subclass's `analyze` behaviour.  `last_signal` caching is observable only
through `get_signal`, which no claim touches, and is omitted. -/
structure Strategy where
  name : String
  config : List (String × String)
  active : Bool
  analyze : MarketData → Option Sig

/-- `MovingAverageCrossover.__init__`: the name is the fixed literal
"MA Crossover"; `active` starts `False` via the base initializer. -/
def mkMovingAverageCrossover (shortWindow longWindow : ℕ)
    (config : List (String × String)) : Strategy :=
  { name := "MA Crossover", config := config, active := false,
    analyze := fun md => some (maAnalyze shortWindow longWindow md.prices) }

/-- `RSIStrategy.__init__`: the name is the fixed literal "RSI Strategy". -/
def mkRSIStrategy (period : ℕ) (oversold overbought : ℚ)
    (config : List (String × String)) : Strategy :=
  { name := "RSI Strategy", config := config, active := false,
    analyze := fun md => some (rsiAnalyze period oversold overbought md.prices) }

/-- `VolatilityBreakout.__init__`: the name is the fixed literal
"Volatility Breakout". -/
def mkVolatilityBreakout (lookback : ℕ) (volFactor : ℚ)
    (config : List (String × String)) : Strategy :=
  { name := "Volatility Breakout", config := config, active := false,
    analyze := fun md => vbAnalyze lookback volFactor md.highs md.lows md.prices }

/-! ## StrategyManager (strategy_manager.py) -/

/-- The manager's state: the name-keyed registry dict, the ordered
active-name list, and the current market data (`none` = never set /
empty dict, which is falsy in the `run_strategies` guard). -/
structure ManagerState where
  strategies : String → Option Strategy
  active : List String
  marketData : Option MarketData

/-- `StrategyManager.__init__`. -/
def emptyManager : ManagerState :=
  { strategies := fun _ => none, active := [], marketData := none }

/-- `add_strategy`: insert by name, overwriting any existing entry;
the active list is untouched. -/
def addStrategy (st : ManagerState) (s : Strategy) : ManagerState :=
  { st with strategies := fun n => if n = s.name then some s else st.strategies n }

/-- `remove_strategy`: if the name is registered, drop it from the active
list (first occurrence, as Python `list.remove`) and delete it from the
registry, returning `true`; otherwise return `false`. -/
def removeStrategy (st : ManagerState) (name : String) :
    ManagerState × Bool :=
  match st.strategies name with
  | some _ =>
    ({ st with
       active := st.active.erase name,
       strategies := fun n => if n = name then none else st.strategies n }, true)
  | none => (st, false)

/-- Rewrite a strategy object's own `active` flag
(`TradingStrategy.activate` / `.deactivate`). -/
def setActiveFlag (b : Bool) (s : Strategy) : Strategy := { s with active := b }

/-- `activate_strategy`: fail on unknown names; append to the active list
and set the object's flag only when not already active. -/
def activateStrategy (st : ManagerState) (name : String) :
    ManagerState × Bool :=
  match st.strategies name with
  | none => (st, false)
  | some _ =>
    if name ∈ st.active then (st, true)
    else
      ({ st with
         active := st.active ++ [name],
         strategies := fun n =>
           if n = name then (st.strategies n).map (setActiveFlag true)
           else st.strategies n }, true)

/-- `deactivate_strategy`: fail on unknown names; erase from the active
list and clear the object's flag only when currently active. -/
def deactivateStrategy (st : ManagerState) (name : String) :
    ManagerState × Bool :=
  match st.strategies name with
  | none => (st, false)
  | some _ =>
    if name ∈ st.active then
      ({ st with
         active := st.active.erase name,
         strategies := fun n =>
           if n = name then (st.strategies n).map (setActiveFlag false)
           else st.strategies n }, true)
    else (st, true)

/-- `update_market_data`: wholesale replacement. -/
def updateMarketData (st : ManagerState) (md : MarketData) : ManagerState :=
  { st with marketData := some md }

/-- The loop body of `run_strategies` over the active-name list, in order.
`self.strategies[strategy_name]` sits outside the `try`, so a missing
registry entry is a raised `KeyError` (`none`); an exception from
`analyze` is caught and the strategy is skipped. -/
def runActive (reg : String → Option Strategy) (md : MarketData) :
    List String → Option (List (String × Sig))
  | [] => some []
  | n :: rest =>
    match reg n with
    | none => none
    | some s =>
      match s.analyze md with
      | none => runActive reg md rest
      | some sig => (runActive reg md rest).map fun r => (n, sig) :: r

/-- `run_strategies`: with no market data the result is the empty mapping
(a logged no-op, not an error); otherwise the active strategies are
evaluated in insertion order. -/
def runStrategies (st : ManagerState) : Option (List (String × Sig)) :=
  match st.marketData with
  | none => some []
  | some md => runActive st.strategies md st.active

/-- The consensus dict.  The count and details keys are `Option`-valued
because the early empty-input return carries neither counts nor details. -/
structure ConsensusResult where
  signal : Sig
  reason : String
  buyCount : Option ℕ
  sellCount : Option ℕ
  holdCount : Option ℕ
  details : Option (List (String × Sig))
deriving DecidableEq, Repr

/-- `sum(1 for s in signals.values() if s.get('signal') == k)`. -/
def countSig (k : Sig) (signals : List (String × Sig)) : ℕ :=
  (signals.filter fun p => p.2 = k).length

/-- The tally-and-vote body of `get_consensus_signal`, applied to the
mapping produced by `run_strategies`. -/
def getConsensusSignal (signals : List (String × Sig)) : ConsensusResult :=
  match signals with
  | [] =>
    { signal := Sig.HOLD, reason := "No active strategies",
      buyCount := none, sellCount := none, holdCount := none, details := none }
  | _ :: _ =>
    let buyCount := countSig Sig.BUY signals
    let sellCount := countSig Sig.SELL signals
    let holdCount := countSig Sig.HOLD signals
    if buyCount > sellCount ∧ buyCount > holdCount then
      { signal := Sig.BUY,
        reason := "Majority consensus: " ++ toString buyCount ++ "/" ++
          toString signals.length ++ " strategies recommend BUY",
        buyCount := some buyCount, sellCount := some sellCount,
        holdCount := some holdCount, details := some signals }
    else if sellCount > buyCount ∧ sellCount > holdCount then
      { signal := Sig.SELL,
        reason := "Majority consensus: " ++ toString sellCount ++ "/" ++
          toString signals.length ++ " strategies recommend SELL",
        buyCount := some buyCount, sellCount := some sellCount,
        holdCount := some holdCount, details := some signals }
    else
      { signal := Sig.HOLD,
        reason := "No clear consensus or majority HOLD: " ++
          toString holdCount ++ "/" ++ toString signals.length ++ " strategies",
        buyCount := some buyCount, sellCount := some sellCount,
        holdCount := some holdCount, details := some signals }

/-- `get_consensus_signal` end to end: run the strategies, then vote. -/
def getConsensus (st : ManagerState) : Option ConsensusResult :=
  (runStrategies st).map getConsensusSignal

/-- `create_default_strategies`: the five default instances, added in
source order (`1.5 = 3/2`). -/
def createDefaultStrategies (st : ManagerState) : ManagerState :=
  let st1 := addStrategy st (mkMovingAverageCrossover 10 30 [])
  let st2 := addStrategy st1
    (mkMovingAverageCrossover 20 50 [("name", "MA Crossover Medium")])
  let st3 := addStrategy st2 (mkRSIStrategy 14 30 70 [])
  let st4 := addStrategy st3 (mkRSIStrategy 7 25 75 [("name", "RSI Aggressive")])
  addStrategy st4 (mkVolatilityBreakout 20 (3 / 2) [])

/-- Spec-side companion for the previous-period windows: the window of
exactly `k` prices ending at the second-to-last element, when such a
window exists ("the mean of `long_window` prices ending at the
second-to-last element"). -/
def strictPrevWindow (xs : List ℚ) (k : ℕ) : Option (List ℚ) :=
  if k + 1 ≤ xs.length then some (xs.dropLast.drop (xs.length - 1 - k)) else none

/-- Spec-side previous-period mean, when the full-length window exists. -/
def strictPrevMean (xs : List ℚ) (k : ℕ) : Option ℚ :=
  (strictPrevWindow xs k).map mean

/-- `true` when the registry holds the name and its `analyze` returns
without raising on `md`. -/
def analyzeSucceeds (reg : String → Option Strategy) (md : MarketData)
    (n : String) : Bool :=
  match reg n with
  | some s => (s.analyze md).isSome
  | none => false

/-! ## Claims -/

/-- C1: the claim asserts `VolatilityBreakout.analyze` is total (returns a
signal, never raises) whenever the aligned series satisfy
`len(prices) >= lookback_period`, in particular at the exact boundary
`len(prices) == lookback_period`.  At that boundary the code raises: with
`lookback_period = 2` and aligned series of length 2, the true-range
loop's iteration `i = 1` reads `closes[-3]`, which does not exist, so
`analyze` raises `IndexError` (`none`) instead of returning a signal. -/
theorem vbAnalyze_boundary_raises :
    vbAnalyze 2 (3 / 2) [1, 1] [1, 1] [1, 1] = none := by decide

/-- C2 counterexample: on an empty signal collection the consensus result
does not carry `buy_count = 0` — the early return has no count keys at
all, so the `buy_count` field is absent (`none`), not zero. -/
theorem getConsensusSignal_empty_no_counts :
    ¬ (getConsensusSignal []).buyCount = some 0 := by decide

/-- C2 amended: on an empty signal collection the consensus is HOLD with
reason "No active strategies", and the `buy_count`, `sell_count` and
`hold_count` fields are absent from the result (not present with value
zero). -/
theorem getConsensusSignal_empty :
    (getConsensusSignal []).signal = Sig.HOLD ∧
    (getConsensusSignal []).reason = "No active strategies" ∧
    (getConsensusSignal []).buyCount = none ∧
    (getConsensusSignal []).sellCount = none ∧
    (getConsensusSignal []).holdCount = none :=
  ⟨rfl, rfl, rfl, rfl, rfl⟩

/-- C3 counterexample: at the boundary `len(prices) == long_window`
(here `prices = [1, 3]`, `long_window = 2`) the code's previous-period
long window `prices[-3:-1]` clamps to a single element, so `prev_long_ma`
is not the mean of `long_window` prices ending at the second-to-last
element — no such window exists there. -/
theorem prevLongMa_boundary_not_strict :
    some (mean (pyPrevWindow [(1 : ℚ), 3] 2)) ≠ strictPrevMean [(1 : ℚ), 3] 2 := by
  decide

/-- When a full-length shifted window exists, the Python slice
`xs[-k-1:-1]` is exactly the `k`-element window ending at the
second-to-last element. -/
theorem strictPrevWindow_eq_pyPrevWindow (xs : List ℚ) (k : ℕ)
    (h : k + 1 ≤ xs.length) :
    strictPrevWindow xs k = some (pyPrevWindow xs k) := by
  unfold strictPrevWindow pyPrevWindow
  rw [if_pos h, List.length_dropLast]

/-- C3 amended: for `len(prices) >= long_window + 1` (so the shifted
windows fit, with `short_window <= long_window`), `prev_short_ma` and
`prev_long_ma` are exactly the means of the `short_window`- and
`long_window`-length windows ending at the second-to-last element; at the
boundary `len(prices) == long_window` the long slice clamps to the
`long_window - 1` available elements instead. -/
theorem prevMas_are_shifted_window_means (sw lw : ℕ) (prices : List ℚ)
    (hwin : sw ≤ lw) (hlen : lw + 1 ≤ prices.length) :
    some (mean (pyPrevWindow prices sw)) = strictPrevMean prices sw ∧
    some (mean (pyPrevWindow prices lw)) = strictPrevMean prices lw := by
  constructor
  · rw [strictPrevMean, strictPrevWindow_eq_pyPrevWindow _ _ (by omega)]
    rfl
  · rw [strictPrevMean, strictPrevWindow_eq_pyPrevWindow _ _ (by omega)]
    rfl

/-- Witness for the amended C3 at `short_window = 1`, `long_window = 2`,
`prices = [1, 2, 3]`. -/
theorem prevMas_are_shifted_window_means_witness :
    ((1 : ℕ) ≤ 2 ∧ 2 + 1 ≤ ([(1 : ℚ), 2, 3]).length) ∧
    (some (mean (pyPrevWindow [(1 : ℚ), 2, 3] 1)) = strictPrevMean [(1 : ℚ), 2, 3] 1 ∧
     some (mean (pyPrevWindow [(1 : ℚ), 2, 3] 2)) = strictPrevMean [(1 : ℚ), 2, 3] 2) :=
  ⟨⟨by decide, by decide⟩,
   prevMas_are_shifted_window_means 1 2 [(1 : ℚ), 2, 3] (by decide) (by decide)⟩

/-- C6: `MovingAverageCrossover.analyze` is edge-triggered.  If the short
MA is above the long MA now and the previous-period short MA (computed
over the slices excluding the final element) was already above the
previous-period long MA, the signal is HOLD, not BUY. -/
theorem maAnalyze_sustained_state_holds (sw lw : ℕ) (prices : List ℚ)
    (hlen : lw ≤ prices.length)
    (hcur : mean (pyTail prices sw) > mean (pyTail prices lw))
    (hprev : mean (pyPrevWindow prices sw) > mean (pyPrevWindow prices lw)) :
    maAnalyze sw lw prices = Sig.HOLD := by
  have h1 : ¬(mean (pyTail prices sw) > mean (pyTail prices lw) ∧
      mean (pyPrevWindow prices sw) ≤ mean (pyPrevWindow prices lw)) := by
    rintro ⟨-, hle⟩
    exact absurd hprev (not_lt.mpr hle)
  have h2 : ¬(mean (pyTail prices sw) < mean (pyTail prices lw) ∧
      mean (pyPrevWindow prices sw) ≥ mean (pyPrevWindow prices lw)) := by
    rintro ⟨hlt, -⟩
    exact absurd hcur (not_lt.mpr hlt.le)
  simp only [maAnalyze]
  rw [if_neg (show ¬ prices.length < lw by omega), if_neg h1, if_neg h2]

/-- Witness for C6 at `short_window = 1`, `long_window = 2`,
`prices = [1, 2, 4]`: short MA 4 > long MA 3 now, previous short MA 2 >
previous long MA 3/2, and the signal is HOLD. -/
theorem maAnalyze_sustained_state_holds_witness :
    ((2 : ℕ) ≤ ([(1 : ℚ), 2, 4]).length ∧
     mean (pyTail [(1 : ℚ), 2, 4] 1) > mean (pyTail [(1 : ℚ), 2, 4] 2) ∧
     mean (pyPrevWindow [(1 : ℚ), 2, 4] 1) > mean (pyPrevWindow [(1 : ℚ), 2, 4] 2)) ∧
    maAnalyze 1 2 [(1 : ℚ), 2, 4] = Sig.HOLD :=
  ⟨⟨by decide, by norm_num [mean, pyTail], by norm_num [mean, pyPrevWindow]⟩,
   maAnalyze_sustained_state_holds 1 2 [(1 : ℚ), 2, 4] (by decide)
     (by norm_num [mean, pyTail]) (by norm_num [mean, pyPrevWindow])⟩

/-- Every successive difference of a non-decreasing series is
non-negative. -/
theorem npDiff_nonneg {l : List ℚ} (h : List.Chain' (· ≤ ·) l) :
    ∀ d ∈ npDiff l, 0 ≤ d := by
  induction l with
  | nil => intro d hd; simp [npDiff] at hd
  | cons a t ih =>
    cases t with
    | nil => intro d hd; simp [npDiff] at hd
    | cons b r =>
      intro d hd
      rw [npDiff] at hd
      rcases List.mem_cons.mp hd with h1 | h1
      · have hab : a ≤ b := (List.chain'_cons.mp h).1
        subst h1
        exact sub_nonneg.mpr hab
      · exact ih (List.chain'_cons.mp h).2 d h1

/-- The mean of a list of zeros is zero. -/
theorem mean_eq_zero_of_all_zero {l : List ℚ} (h : ∀ x ∈ l, x = 0) :
    mean l = 0 := by
  unfold mean
  rw [List.sum_eq_zero h, zero_div]

/-- `pyTail` selects a subset of its input. -/
theorem pyTail_subset (xs : List ℚ) (k : ℕ) : pyTail xs k ⊆ xs := by
  unfold pyTail
  split
  · exact fun _ h => h
  · exact List.drop_subset _ _

/-- C7: on a monotonically non-decreasing price series with more than
`period` elements (`period ≥ 1`), every loss is zero, so `avg_loss = 0`
and `calculate_rsi` returns exactly 100. -/
theorem calculateRsi_monotone_eq_100 (period : ℕ) (prices : List ℚ)
    (_hp : 1 ≤ period) (hlen : period < prices.length)
    (hmono : List.Chain' (· ≤ ·) prices) :
    calculateRsi period prices = 100 := by
  have hz : mean (pyTail ((npDiff prices).map fun d => -(min d 0)) period) = 0 := by
    apply mean_eq_zero_of_all_zero
    intro x hx
    obtain ⟨d, hd, rfl⟩ := List.mem_map.mp (pyTail_subset _ _ hx)
    have hdn : 0 ≤ d := npDiff_nonneg hmono d hd
    rw [min_eq_right hdn, neg_zero]
  simp only [calculateRsi]
  rw [if_neg (show ¬ prices.length ≤ period by omega), if_pos hz]

/-- Witness for C7 at `period = 1`, `prices = [1, 2]`. -/
theorem calculateRsi_monotone_eq_100_witness :
    ((1 : ℕ) ≤ 1 ∧ 1 < ([(1 : ℚ), 2]).length ∧
     List.Chain' (· ≤ ·) [(1 : ℚ), 2]) ∧
    calculateRsi 1 [(1 : ℚ), 2] = 100 :=
  ⟨⟨by decide, by decide, by simp [List.chain'_cons]⟩,
   calculateRsi_monotone_eq_100 1 [(1 : ℚ), 2] (by decide) (by decide)
     (by simp [List.chain'_cons])⟩

/-- C4: for a non-empty signal collection the consensus is BUY exactly
when `buy_count` strictly exceeds both other counts, SELL exactly when
`sell_count` strictly exceeds both other counts, and HOLD in every other
case (all ties and HOLD-plurality included), where the counts tally the
signal kinds. -/
theorem getConsensusSignal_majority (signals : List (String × Sig))
    (h : signals ≠ []) :
    ((getConsensusSignal signals).signal = Sig.BUY ↔
      countSig Sig.BUY signals > countSig Sig.SELL signals ∧
      countSig Sig.BUY signals > countSig Sig.HOLD signals) ∧
    ((getConsensusSignal signals).signal = Sig.SELL ↔
      countSig Sig.SELL signals > countSig Sig.BUY signals ∧
      countSig Sig.SELL signals > countSig Sig.HOLD signals) ∧
    ((getConsensusSignal signals).signal = Sig.HOLD ↔
      ¬(countSig Sig.BUY signals > countSig Sig.SELL signals ∧
        countSig Sig.BUY signals > countSig Sig.HOLD signals) ∧
      ¬(countSig Sig.SELL signals > countSig Sig.BUY signals ∧
        countSig Sig.SELL signals > countSig Sig.HOLD signals)) := by
  obtain ⟨a, t, rfl⟩ := List.exists_cons_of_ne_nil h
  simp only [getConsensusSignal]
  split_ifs with h1 h2
  · refine ⟨by simp [h1], ?_, ?_⟩ <;> simp <;> omega
  · refine ⟨?_, by simp [h2], ?_⟩ <;> simp <;> omega
  · refine ⟨?_, ?_, by simp [h1, h2]⟩ <;> simp <;> omega

/-- Witness for C4 at the spec's own example `{BUY, SELL}`: two
strategies split BUY/SELL, counts 1/1/0, consensus HOLD. -/
theorem getConsensusSignal_majority_witness :
    ([(("a" : String), Sig.BUY), ("b", Sig.SELL)] ≠ []) ∧
    (((getConsensusSignal [(("a" : String), Sig.BUY), ("b", Sig.SELL)]).signal = Sig.BUY ↔
        countSig Sig.BUY [(("a" : String), Sig.BUY), ("b", Sig.SELL)] >
          countSig Sig.SELL [(("a" : String), Sig.BUY), ("b", Sig.SELL)] ∧
        countSig Sig.BUY [(("a" : String), Sig.BUY), ("b", Sig.SELL)] >
          countSig Sig.HOLD [(("a" : String), Sig.BUY), ("b", Sig.SELL)]) ∧
      ((getConsensusSignal [(("a" : String), Sig.BUY), ("b", Sig.SELL)]).signal = Sig.SELL ↔
        countSig Sig.SELL [(("a" : String), Sig.BUY), ("b", Sig.SELL)] >
          countSig Sig.BUY [(("a" : String), Sig.BUY), ("b", Sig.SELL)] ∧
        countSig Sig.SELL [(("a" : String), Sig.BUY), ("b", Sig.SELL)] >
          countSig Sig.HOLD [(("a" : String), Sig.BUY), ("b", Sig.SELL)]) ∧
      ((getConsensusSignal [(("a" : String), Sig.BUY), ("b", Sig.SELL)]).signal = Sig.HOLD ↔
        ¬(countSig Sig.BUY [(("a" : String), Sig.BUY), ("b", Sig.SELL)] >
            countSig Sig.SELL [(("a" : String), Sig.BUY), ("b", Sig.SELL)] ∧
          countSig Sig.BUY [(("a" : String), Sig.BUY), ("b", Sig.SELL)] >
            countSig Sig.HOLD [(("a" : String), Sig.BUY), ("b", Sig.SELL)]) ∧
        ¬(countSig Sig.SELL [(("a" : String), Sig.BUY), ("b", Sig.SELL)] >
            countSig Sig.BUY [(("a" : String), Sig.BUY), ("b", Sig.SELL)] ∧
          countSig Sig.SELL [(("a" : String), Sig.BUY), ("b", Sig.SELL)] >
            countSig Sig.HOLD [(("a" : String), Sig.BUY), ("b", Sig.SELL)]))) :=
  ⟨by decide, getConsensusSignal_majority [("a", Sig.BUY), ("b", Sig.SELL)] (by decide)⟩

/-- The `run_strategies` loop over a list of active names: when every name
is registered it returns (no raised `KeyError`), its result keys are, in
order, exactly the names whose `analyze` returns without raising, and
each successful strategy appears with its signal. -/
theorem runActive_spec (reg : String → Option Strategy) (md : MarketData) :
    ∀ l : List String, (∀ n ∈ l, (reg n).isSome) →
      ∃ res, runActive reg md l = some res ∧
        res.map Prod.fst = l.filter (analyzeSucceeds reg md) ∧
        ∀ n s sig, n ∈ l → reg n = some s → s.analyze md = some sig →
          (n, sig) ∈ res := by
  intro l
  induction l with
  | nil => exact fun _ => ⟨[], rfl, rfl, by simp⟩
  | cons n rest ih =>
    intro h
    obtain ⟨res, hrun, hmap, hmem⟩ :=
      ih fun m hm => h m (List.mem_cons_of_mem _ hm)
    obtain ⟨s, hs⟩ := Option.isSome_iff_exists.mp (h n (List.mem_cons_self _ _))
    cases hana : s.analyze md with
    | none =>
      refine ⟨res, ?_, ?_, ?_⟩
      · simp only [runActive, hs, hana, hrun]
      · have hf : analyzeSucceeds reg md n = false := by
          simp [analyzeSucceeds, hs, hana]
        simp [List.filter_cons, hf, hmap]
      · intro m s' sig hm hreg' hana'
        rcases List.mem_cons.mp hm with rfl | hm'
        · rw [hs] at hreg'
          injection hreg' with he
          subst he
          rw [hana] at hana'
          exact absurd hana' (by simp)
        · exact hmem m s' sig hm' hreg' hana'
    | some sig =>
      refine ⟨(n, sig) :: res, ?_, ?_, ?_⟩
      · simp only [runActive, hs, hana, hrun, Option.map_some']
      · have ht : analyzeSucceeds reg md n = true := by
          simp [analyzeSucceeds, hs, hana]
        simp [List.filter_cons, ht, hmap]
      · intro m s' sig' hm hreg' hana'
        rcases List.mem_cons.mp hm with rfl | hm'
        · rw [hs] at hreg'
          injection hreg' with he
          subst he
          rw [hana] at hana'
          injection hana' with he2
          subst he2
          exact List.mem_cons_self _ _
        · exact List.mem_cons_of_mem _ (hmem m s' sig' hm' hreg' hana')

/-- C5: with market data set and every active name registered,
`run_strategies` never raises; it evaluates the active strategies in
insertion order, a strategy whose `analyze` raises is absent from the
returned mapping, and every other active strategy that evaluates
successfully appears with its signal. -/
theorem runStrategies_isolates_faults (st : ManagerState) (md : MarketData)
    (hmd : st.marketData = some md)
    (hreg : ∀ n ∈ st.active, (st.strategies n).isSome) :
    ∃ res, runStrategies st = some res ∧
      res.map Prod.fst = st.active.filter (analyzeSucceeds st.strategies md) ∧
      (∀ n s sig, n ∈ st.active → st.strategies n = some s →
        s.analyze md = some sig → (n, sig) ∈ res) ∧
      (∀ n s, n ∈ st.active → st.strategies n = some s →
        s.analyze md = none → n ∉ res.map Prod.fst) := by
  obtain ⟨res, hrun, hmap, hmem⟩ := runActive_spec st.strategies md st.active hreg
  refine ⟨res, ?_, hmap, hmem, ?_⟩
  · rw [runStrategies, hmd]
    exact hrun
  · intro n s hn hs hana hcontra
    rw [hmap] at hcontra
    have := (List.mem_filter.mp hcontra).2
    simp [analyzeSucceeds, hs, hana] at this

/-- A concrete two-strategy state for the C5 witness: strategy "A" raises
on every snapshot, strategy "B" returns BUY. -/
def faultyPairState : ManagerState :=
  { strategies := fun n =>
      if n = "A" then
        some { name := "A", config := [], active := true, analyze := fun _ => none }
      else if n = "B" then
        some { name := "B", config := [], active := true,
               analyze := fun _ => some Sig.BUY }
      else none,
    active := ["A", "B"],
    marketData := some { prices := [1], highs := [1], lows := [1] } }

/-- Witness for C5 on `faultyPairState`: the hypotheses hold and the
conclusion follows by applying the theorem. -/
theorem runStrategies_isolates_faults_witness :
    (faultyPairState.marketData =
        some { prices := [1], highs := [1], lows := [1] } ∧
      ∀ n ∈ faultyPairState.active, (faultyPairState.strategies n).isSome) ∧
    (∃ res, runStrategies faultyPairState = some res ∧
      res.map Prod.fst =
        faultyPairState.active.filter
          (analyzeSucceeds faultyPairState.strategies
            { prices := [1], highs := [1], lows := [1] }) ∧
      (∀ n s sig, n ∈ faultyPairState.active →
        faultyPairState.strategies n = some s →
        s.analyze { prices := [1], highs := [1], lows := [1] } = some sig →
        (n, sig) ∈ res) ∧
      (∀ n s, n ∈ faultyPairState.active →
        faultyPairState.strategies n = some s →
        s.analyze { prices := [1], highs := [1], lows := [1] } = none →
        n ∉ res.map Prod.fst)) :=
  ⟨⟨rfl, by intro n hn; fin_cases hn <;> rfl⟩,
   runStrategies_isolates_faults faultyPairState
     { prices := [1], highs := [1], lows := [1] } rfl
     (by intro n hn; fin_cases hn <;> rfl)⟩

/-- C9: if a name is already in the active list and `add_strategy`
overwrites that name with a freshly constructed strategy object (own
`active` flag `False`), the name stays in the active list and the next
`run_strategies` evaluates the new object: membership in the manager's
active list, not the strategy's own flag, decides evaluation. -/
theorem addStrategy_overwrite_still_evaluated (st : ManagerState)
    (sNew : Strategy) (md : MarketData) (sig : Sig)
    (hmem : sNew.name ∈ st.active) (_hflag : sNew.active = false)
    (hmd : st.marketData = some md) (hana : sNew.analyze md = some sig)
    (hreg : ∀ n ∈ st.active, n ≠ sNew.name → (st.strategies n).isSome) :
    (addStrategy st sNew).active = st.active ∧
    ∃ res, runStrategies (addStrategy st sNew) = some res ∧
      (sNew.name, sig) ∈ res := by
  refine ⟨rfl, ?_⟩
  have hreg' : ∀ n ∈ st.active, ((addStrategy st sNew).strategies n).isSome := by
    intro n hn
    by_cases hne : n = sNew.name
    · simp [addStrategy, hne]
    · simpa [addStrategy, hne] using hreg n hn hne
  obtain ⟨res, hrun, -, hmem'⟩ :=
    runActive_spec (addStrategy st sNew).strategies md st.active hreg'
  refine ⟨res, ?_, ?_⟩
  · rw [runStrategies]
    have : (addStrategy st sNew).marketData = some md := hmd
    rw [this]
    exact hrun
  · exact hmem' sNew.name sNew sig hmem (by simp [addStrategy]) hana

/-- Witness for C9: "MA Crossover" is active with an old instance
registered; adding a fresh `MovingAverageCrossover 20 50` (flag `False`)
keeps it active and the next run evaluates the new object (HOLD on the
short snapshot). -/
theorem addStrategy_overwrite_still_evaluated_witness :
    (("MA Crossover" : String) ∈
        (updateMarketData
          (activateStrategy
            (addStrategy emptyManager (mkMovingAverageCrossover 10 30 []))
            "MA Crossover").1
          { prices := [1], highs := [], lows := [] }).active ∧
      (mkMovingAverageCrossover 20 50 []).active = false ∧
      (updateMarketData
          (activateStrategy
            (addStrategy emptyManager (mkMovingAverageCrossover 10 30 []))
            "MA Crossover").1
          { prices := [1], highs := [], lows := [] }).marketData =
        some { prices := [1], highs := [], lows := [] } ∧
      (mkMovingAverageCrossover 20 50 []).analyze
          { prices := [1], highs := [], lows := [] } = some Sig.HOLD) ∧
    ((addStrategy
        (updateMarketData
          (activateStrategy
            (addStrategy emptyManager (mkMovingAverageCrossover 10 30 []))
            "MA Crossover").1
          { prices := [1], highs := [], lows := [] })
        (mkMovingAverageCrossover 20 50 [])).active =
      (updateMarketData
          (activateStrategy
            (addStrategy emptyManager (mkMovingAverageCrossover 10 30 []))
            "MA Crossover").1
          { prices := [1], highs := [], lows := [] }).active ∧
      ∃ res, runStrategies
          (addStrategy
            (updateMarketData
              (activateStrategy
                (addStrategy emptyManager (mkMovingAverageCrossover 10 30 []))
                "MA Crossover").1
              { prices := [1], highs := [], lows := [] })
            (mkMovingAverageCrossover 20 50 [])) = some res ∧
        (("MA Crossover" : String), Sig.HOLD) ∈ res) :=
  ⟨⟨by simp [updateMarketData, activateStrategy, addStrategy, emptyManager,
      mkMovingAverageCrossover],
    rfl, rfl, rfl⟩,
   addStrategy_overwrite_still_evaluated _ (mkMovingAverageCrossover 20 50 [])
     { prices := [1], highs := [], lows := [] } Sig.HOLD
     (by simp [updateMarketData, activateStrategy, addStrategy, emptyManager,
       mkMovingAverageCrossover])
     rfl rfl rfl
     (by intro n hn hne
         simp [updateMarketData, activateStrategy, addStrategy, emptyManager,
           mkMovingAverageCrossover] at hn
         simp [mkMovingAverageCrossover] at hne
         exact absurd hn hne)⟩

/-- C8: after `add_strategy(s)` followed by `deactivate_strategy(s.name)`
and `remove_strategy(s.name)` in either order, the name is registered in
neither the strategy mapping nor the active list (the active list is an
ordered set, i.e. duplicate-free). -/
theorem add_deactivate_remove_clears_name (st : ManagerState) (s : Strategy)
    (hnd : st.active.Nodup) :
    ((removeStrategy (deactivateStrategy (addStrategy st s) s.name).1 s.name).1.strategies
        s.name = none ∧
      s.name ∉
        (removeStrategy (deactivateStrategy (addStrategy st s) s.name).1 s.name).1.active) ∧
    ((deactivateStrategy (removeStrategy (addStrategy st s) s.name).1 s.name).1.strategies
        s.name = none ∧
      s.name ∉
        (deactivateStrategy (removeStrategy (addStrategy st s) s.name).1 s.name).1.active) := by
  have he1 : s.name ∉ st.active.erase s.name := hnd.not_mem_erase
  have he2 : (st.active.erase s.name).erase s.name = st.active.erase s.name :=
    List.erase_of_not_mem he1
  constructor
  · by_cases hin : s.name ∈ st.active
    · simp [deactivateStrategy, addStrategy, removeStrategy, setActiveFlag,
        hin, he1, he2]
    · simp [deactivateStrategy, addStrategy, removeStrategy, setActiveFlag,
        hin, List.erase_of_not_mem hin]
  · by_cases hin : s.name ∈ st.active
    · simp [deactivateStrategy, addStrategy, removeStrategy, setActiveFlag,
        hin, he1, he2]
    · simp [deactivateStrategy, addStrategy, removeStrategy, setActiveFlag,
        hin, List.erase_of_not_mem hin]

/-- Witness for C8 on a one-strategy manager with a duplicate-free active
list. -/
theorem add_deactivate_remove_clears_name_witness :
    (emptyManager.active.Nodup) ∧
    (((removeStrategy
          (deactivateStrategy
            (addStrategy emptyManager (mkMovingAverageCrossover 10 30 []))
            (mkMovingAverageCrossover 10 30 []).name).1
          (mkMovingAverageCrossover 10 30 []).name).1.strategies
        (mkMovingAverageCrossover 10 30 []).name = none ∧
      (mkMovingAverageCrossover 10 30 []).name ∉
        (removeStrategy
          (deactivateStrategy
            (addStrategy emptyManager (mkMovingAverageCrossover 10 30 []))
            (mkMovingAverageCrossover 10 30 []).name).1
          (mkMovingAverageCrossover 10 30 []).name).1.active) ∧
    (((deactivateStrategy
          (removeStrategy
            (addStrategy emptyManager (mkMovingAverageCrossover 10 30 []))
            (mkMovingAverageCrossover 10 30 []).name).1
          (mkMovingAverageCrossover 10 30 []).name).1.strategies
        (mkMovingAverageCrossover 10 30 []).name = none ∧
      (mkMovingAverageCrossover 10 30 []).name ∉
        (deactivateStrategy
          (removeStrategy
            (addStrategy emptyManager (mkMovingAverageCrossover 10 30 []))
            (mkMovingAverageCrossover 10 30 []).name).1
          (mkMovingAverageCrossover 10 30 []).name).1.active))) :=
  ⟨List.nodup_nil,
   add_deactivate_remove_clears_name emptyManager
     (mkMovingAverageCrossover 10 30 []) List.nodup_nil⟩

/-- C10: each constructor fixes the strategy name to its class-wide
constant for every parameter/config argument (the config's "name" entry
is never read); hence two instances of one class added to a manager
collide on name with last-write-wins, and after
`create_default_strategies` only the second MA Crossover, the second RSI
Strategy and the single Volatility Breakout remain registered — and
nothing else. -/
theorem constructor_names_fixed_and_defaults_collide :
    (∀ (sw lw : ℕ) (cfg : List (String × String)),
      (mkMovingAverageCrossover sw lw cfg).name = "MA Crossover") ∧
    (∀ (p : ℕ) (os ob : ℚ) (cfg : List (String × String)),
      (mkRSIStrategy p os ob cfg).name = "RSI Strategy") ∧
    (∀ (lb : ℕ) (vf : ℚ) (cfg : List (String × String)),
      (mkVolatilityBreakout lb vf cfg).name = "Volatility Breakout") ∧
    (∀ (st : ManagerState) (sw1 lw1 sw2 lw2 : ℕ)
      (c1 c2 : List (String × String)),
      (addStrategy (addStrategy st (mkMovingAverageCrossover sw1 lw1 c1))
          (mkMovingAverageCrossover sw2 lw2 c2)).strategies "MA Crossover" =
        some (mkMovingAverageCrossover sw2 lw2 c2)) ∧
    ((createDefaultStrategies emptyManager).strategies "MA Crossover" =
      some (mkMovingAverageCrossover 20 50 [("name", "MA Crossover Medium")])) ∧
    ((createDefaultStrategies emptyManager).strategies "RSI Strategy" =
      some (mkRSIStrategy 7 25 75 [("name", "RSI Aggressive")])) ∧
    ((createDefaultStrategies emptyManager).strategies "Volatility Breakout" =
      some (mkVolatilityBreakout 20 (3 / 2) [])) ∧
    (∀ n : String, ((createDefaultStrategies emptyManager).strategies n).isSome =
      (decide (n = "MA Crossover") || decide (n = "RSI Strategy") ||
        decide (n = "Volatility Breakout"))) := by
  refine ⟨fun _ _ _ => rfl, fun _ _ _ _ => rfl, fun _ _ _ => rfl, ?_, ?_, ?_, ?_, ?_⟩
  · intro st sw1 lw1 sw2 lw2 c1 c2
    simp [addStrategy, mkMovingAverageCrossover]
  · simp [createDefaultStrategies, addStrategy, mkMovingAverageCrossover,
      mkRSIStrategy, mkVolatilityBreakout, emptyManager]
  · simp [createDefaultStrategies, addStrategy, mkMovingAverageCrossover,
      mkRSIStrategy, mkVolatilityBreakout, emptyManager]
  · simp [createDefaultStrategies, addStrategy, mkMovingAverageCrossover,
      mkRSIStrategy, mkVolatilityBreakout, emptyManager]
  · intro n
    by_cases h1 : n = "MA Crossover" <;>
      by_cases h2 : n = "RSI Strategy" <;>
        by_cases h3 : n = "Volatility Breakout" <;>
          simp [createDefaultStrategies, addStrategy, mkMovingAverageCrossover,
            mkRSIStrategy, mkVolatilityBreakout, emptyManager, h1, h2, h3]
